import Mathlib

/-!
Verification of the identifier-assignment core of `Scaffold_utilities/scafid.py`.

The Python source is shallowly embedded below:
* `hashB32` embeds `_hash_b32` (SHA-1, base-32 encoding, truncation);
* `idGenerator` embeds `id_generator`, with the process-wide pseudorandom
  source modelled as an explicit stream `src : Nat → Nat` together with a
  position counter that each draw advances;
* `makeScaffoldId` embeds `make_scaffold_id`;
* `assignIds` embeds `assign_ids`, including the `ensure_unique` pass;
* `extrapolateIds` embeds `extrapolate_ids`.
Fallible Python code (raised `ValueError`) becomes `Except Err`; the
unbounded `while` retry loops become fuel-indexed recursions where running
out of fuel yields `Err.fuelOut`, meaning "the Python loop is still running
after that many iterations".
-/

set_option maxRecDepth 100000

namespace Scafid

/-! ### 32-bit arithmetic helpers (machine words as `Nat` mod `2 ^ 32`) -/

def M32 : Nat := 2 ^ 32

def add32 (a b : Nat) : Nat := (a + b) % M32

/-- Left rotation of a 32-bit word (input assumed `< 2 ^ 32`). -/
def rotl32 (k n : Nat) : Nat := ((n <<< k) % M32) ||| (n >>> (32 - k))

/-- Bitwise complement of a 32-bit word. -/
def not32 (n : Nat) : Nat := n ^^^ (M32 - 1)

/-- Big-endian byte decomposition: `n` bytes of the value `v`. -/
def toBytesBE : Nat → Nat → List Nat
  | 0, _ => []
  | k + 1, v => toBytesBE k (v >>> 8) ++ [v &&& 0xFF]

/-- Group a byte list into big-endian 32-bit words (4 bytes each). -/
def bytesToWords : List Nat → List Nat
  | b0 :: b1 :: b2 :: b3 :: rest =>
      ((b0 <<< 24) ||| (b1 <<< 16) ||| (b2 <<< 8) ||| b3) :: bytesToWords rest
  | _ => []

/-! ### UTF-8 encoding (`text.encode('utf-8')`) -/

def utf8Char (c : Nat) : List Nat :=
  if c < 0x80 then [c]
  else if c < 0x800 then
    [0xC0 ||| (c >>> 6), 0x80 ||| (c &&& 0x3F)]
  else if c < 0x10000 then
    [0xE0 ||| (c >>> 12), 0x80 ||| ((c >>> 6) &&& 0x3F), 0x80 ||| (c &&& 0x3F)]
  else
    [0xF0 ||| (c >>> 18), 0x80 ||| ((c >>> 12) &&& 0x3F),
     0x80 ||| ((c >>> 6) &&& 0x3F), 0x80 ||| (c &&& 0x3F)]

def utf8Bytes (s : String) : List Nat :=
  s.data.flatMap (fun c => utf8Char c.toNat)

/-! ### SHA-1 (`hashlib.sha1(...).digest()`) -/

structure Sha1St where
  a : Nat
  b : Nat
  c : Nat
  d : Nat
  e : Nat

def sha1Init : Sha1St :=
  ⟨0x67452301, 0xEFCDAB89, 0x98BADCFE, 0x10325476, 0xC3D2E1F0⟩

/-- Message-schedule extension: from 16 words to 80 words. -/
def sha1Ws (w16 : List Nat) : List Nat :=
  (List.range 64).foldl
    (fun w i =>
      w ++ [rotl32 1 ((w.getD (i + 13) 0) ^^^ (w.getD (i + 8) 0) ^^^
                      (w.getD (i + 2) 0) ^^^ (w.getD i 0))])
    w16

def sha1Round (w : List Nat) (st : Sha1St) (i : Nat) : Sha1St :=
  let f :=
    if i < 20 then (st.b &&& st.c) ||| ((not32 st.b) &&& st.d)
    else if i < 40 then st.b ^^^ st.c ^^^ st.d
    else if i < 60 then (st.b &&& st.c) ||| (st.b &&& st.d) ||| (st.c &&& st.d)
    else st.b ^^^ st.c ^^^ st.d
  let k :=
    if i < 20 then 0x5A827999
    else if i < 40 then 0x6ED9EBA1
    else if i < 60 then 0x8F1BBCDC
    else 0xCA62C1D6
  let temp := (rotl32 5 st.a + f + st.e + k + w.getD i 0) % M32
  ⟨temp, st.a, rotl32 30 st.b, st.c, st.d⟩

/-- Process one 64-byte block. -/
def sha1Block (st : Sha1St) (block : List Nat) : Sha1St :=
  let w := sha1Ws (bytesToWords block)
  let r := (List.range 80).foldl (sha1Round w) st
  ⟨add32 st.a r.a, add32 st.b r.b, add32 st.c r.c, add32 st.d r.d, add32 st.e r.e⟩

/-- SHA-1 padding: `0x80`, zero bytes to 56 mod 64, then the 64-bit
big-endian bit length. -/
def sha1Pad (msg : List Nat) : List Nat :=
  let len := msg.length
  let zeros := (119 - len % 64) % 64
  msg ++ [0x80] ++ List.replicate zeros 0 ++ toBytesBE 8 (8 * len)

/-- Fold over `n` 64-byte blocks (structural recursion on the block count,
so that the kernel can evaluate it). -/
def sha1Blocks (st : Sha1St) (bytes : List Nat) : Nat → Sha1St
  | 0 => st
  | n + 1 => sha1Blocks (sha1Block st (bytes.take 64)) (bytes.drop 64) n

/-- The 20-byte SHA-1 digest of a byte string. -/
def sha1 (msg : List Nat) : List Nat :=
  let p := sha1Pad msg
  let st := sha1Blocks sha1Init p (p.length / 64)
  toBytesBE 4 st.a ++ toBytesBE 4 st.b ++ toBytesBE 4 st.c ++
  toBytesBE 4 st.d ++ toBytesBE 4 st.e

/-! ### Base-32 encoding (`base64.b32encode(...).decode('ascii').rstrip('=')`) -/

def b32Alphabet : List Char := "ABCDEFGHIJKLMNOPQRSTUVWXYZ234567".data

def bytesToNatBE (bs : List Nat) : Nat :=
  bs.foldl (fun acc b => acc * 256 + b % 256) 0

/-- RFC-4648 base-32 of a byte string with the trailing padding characters
stripped: the big-endian bit string is cut into 5-bit chunks (the last chunk
zero-extended) and each chunk indexes the base-32 alphabet. -/
def b32encodeList (bs : List Nat) : List Char :=
  let nbits := 8 * bs.length
  let nchars := (nbits + 4) / 5
  let n := bytesToNatBE bs <<< (5 * nchars - nbits)
  (List.range nchars).map (fun i => b32Alphabet.getD ((n >>> (5 * (nchars - 1 - i))) % 32) 'A')

/-- Embeds `_hash_b32`: SHA-1 of the UTF-8 bytes, base-32, truncated to
`length` characters. -/
def hashB32 (text : String) (length : Nat) : String :=
  String.mk ((b32encodeList (sha1 (utf8Bytes text))).take length)

/-! ### Python string stripping (`str.strip()`, ASCII whitespace) -/

/-- The ASCII whitespace characters Python's `str.strip()` removes. -/
def isPySpace (c : Char) : Bool :=
  c = ' ' || c = '\t' || c = '\n' || c = '\x0d' || c = '\x0b' || c = '\x0c'

def dropSpaceLeft : List Char → List Char
  | [] => []
  | c :: cs => if isPySpace c then dropSpaceLeft cs else c :: cs

/-- Embeds `str.strip()` (for ASCII whitespace): drop leading and trailing
whitespace characters. -/
def pyStrip (s : String) : String :=
  String.mk (dropSpaceLeft (dropSpaceLeft s.data.reverse).reverse)

/-! ### Random identifiers

`random.choice(chars)` draws from the process-wide pseudorandom source. The
source is modelled as an explicit stream `src : Nat → Nat` together with a
position counter `pos`: the draw at step `pos` picks the character at index
`src pos % chars.length`, and each draw advances `pos` by one. -/

/-- `string.ascii_uppercase + string.digits`, the default alphabet. -/
def defaultChars : List Char := "ABCDEFGHIJKLMNOPQRSTUVWXYZ0123456789".data

/-- Embeds `id_generator(size, chars)`: `size` independent draws from
`chars`, starting at stream position `pos`. -/
def idGenerator (size : Nat) (chars : List Char) (src : Nat → Nat) (pos : Nat) : String :=
  String.mk ((List.range size).map (fun i => chars.getD (src (pos + i) % chars.length) 'A'))

/-- Failures of the embedded code: `configError` models the `ValueError`
raised for an unrecognized strategy; `fuelOut` means the unbounded Python
`while` loop is still running after the supplied number of iterations. -/
inductive Err where
  | configError
  | fuelOut
deriving DecidableEq, Repr

/-- The key-normalization line of `make_scaffold_id`:
`key = scaffold_smiles.strip() if isinstance(scaffold_smiles, str) else "NA_SCAFFOLD"`.
A `none` scaffold models a non-string value (`None` / `NaN`). -/
def normKey : Option String → String
  | some s => pyStrip s
  | none => "NA_SCAFFOLD"

/-- Embeds `make_scaffold_id(scaffold_smiles, strategy, length)` with the
default `rnd_chars`; the random branch consumes `length` draws from the
stream. -/
def makeScaffoldId (scaffold : Option String) (strategy : String) (length : Nat)
    (src : Nat → Nat) (pos : Nat) : Except Err (String × Nat) :=
  if strategy ≠ "stable" ∧ strategy ≠ "random" then .error .configError
  else
    let key := normKey scaffold
    if strategy = "stable" then .ok (hashB32 key length, pos)
    else .ok (idGenerator length defaultChars src pos, pos + length)

/-! ### `assign_ids` -/

/-- The initial `progress_apply(make_scaffold_id ...)` pass over the key
column, threading the random stream position. -/
def assignPass1 (strategy : String) (length : Nat) (src : Nat → Nat) :
    List (Option String) → Nat → Except Err (List String × Nat)
  | [], pos => .ok ([], pos)
  | k :: ks, pos =>
    match makeScaffoldId k strategy length src pos with
    | .error e => .error e
    | .ok (x, pos₁) =>
      match assignPass1 strategy length src ks pos₁ with
      | .error e => .error e
      | .ok (xs, pos₂) => .ok (x :: xs, pos₂)

/-- The `while new_id in seen: new_id = id_generator(size=length)` loop,
fuel-indexed: starting from candidate `cand`, reroll (with the default
alphabet) until the candidate is outside `seen`. -/
def rerollLoop (length : Nat) (src : Nat → Nat) :
    Nat → List String → String → Nat → Except Err (String × Nat)
  | fuel, seen, cand, pos =>
    if cand ∈ seen then
      match fuel with
      | 0 => .error .fuelOut
      | f + 1 => rerollLoop length src f seen (idGenerator length defaultChars src pos) (pos + length)
    else .ok (cand, pos)

/-- Embeds `ensure_unique(x)` against the captured `seen` set: keep `x` if
unseen, otherwise reroll until unique; the result is added to `seen`. -/
def ensureUniqueStep (length : Nat) (src : Nat → Nat) (fuel : Nat)
    (seen : List String) (x : String) (pos : Nat) :
    Except Err (String × List String × Nat) :=
  if x ∉ seen then .ok (x, x :: seen, pos)
  else
    match rerollLoop length src fuel seen x pos with
    | .error e => .error e
    | .ok (y, pos₁) => .ok (y, y :: seen, pos₁)

/-- The second `progress_apply(ensure_unique)` pass. -/
def ensureUniquePass (length : Nat) (src : Nat → Nat) (fuel : Nat) :
    List String → List String → Nat → Except Err (List String × Nat)
  | [], _, pos => .ok ([], pos)
  | x :: xs, seen, pos =>
    match ensureUniqueStep length src fuel seen x pos with
    | .error e => .error e
    | .ok (y, seen₁, pos₁) =>
      match ensureUniquePass length src fuel xs seen₁ pos₁ with
      | .error e => .error e
      | .ok (ys, pos₂) => .ok (y :: ys, pos₂)

/-- Embeds `assign_ids`: the dataset's key column is the list of (possibly
missing) scaffold strings; the result is the new identifier column. -/
def assignIds (keys : List (Option String)) (strategy : String) (length : Nat)
    (fuel : Nat) (src : Nat → Nat) : Except Err (List String) :=
  match assignPass1 strategy length src keys 0 with
  | .error e => .error e
  | .ok (ids, pos) =>
    if strategy = "random" then
      match ensureUniquePass length src fuel ids [] pos with
      | .error e => .error e
      | .ok (ids₁, _) => .ok ids₁
    else .ok ids

/-! ### `extrapolate_ids` -/

/-- `dict(zip(existing_df[scaffold_col], existing_df[id_col]))` lookup:
Python dict construction is last-write-wins, so the fold keeps the last
matching pair. -/
def dictLookup (m : List (Option String × String)) (k : Option String) : Option String :=
  m.foldl (fun acc p => if p.1 = k then some p.2 else acc) none

/-- Embeds `get_or_make_id(scaffold)`: reuse the mapped identifier when the
raw key is present; otherwise mint one with `make_scaffold_id`, reroll out
of `existing_ids` when the strategy is `random`, and add the result to
`existing_ids`. The mapping itself is never extended. -/
def getOrMakeId (mapping : List (Option String × String)) (strategyNew : String)
    (length : Nat) (fuel : Nat) (src : Nat → Nat) (scaffold : Option String)
    (existingIds : List String) (pos : Nat) :
    Except Err (String × List String × Nat) :=
  match dictLookup mapping scaffold with
  | some v => .ok (v, existingIds, pos)
  | none =>
    match makeScaffoldId scaffold strategyNew length src pos with
    | .error e => .error e
    | .ok (newId, pos₁) =>
      if strategyNew = "random" then
        match rerollLoop length src fuel existingIds newId pos₁ with
        | .error e => .error e
        | .ok (y, pos₂) => .ok (y, y :: existingIds, pos₂)
      else .ok (newId, newId :: existingIds, pos₁)

/-- The `progress_apply(get_or_make_id)` pass over the new key column. -/
def extrapGo (mapping : List (Option String × String)) (strategyNew : String)
    (length : Nat) (fuel : Nat) (src : Nat → Nat) :
    List (Option String) → List String → Nat → Except Err (List String × List String × Nat)
  | [], ids, pos => .ok ([], ids, pos)
  | k :: ks, ids, pos =>
    match getOrMakeId mapping strategyNew length fuel src k ids pos with
    | .error e => .error e
    | .ok (y, ids₁, pos₁) =>
      match extrapGo mapping strategyNew length fuel src ks ids₁ pos₁ with
      | .error e => .error e
      | .ok (ys, ids₂, pos₂) => .ok (y :: ys, ids₂, pos₂)

/-- Embeds `extrapolate_ids`: `existing` is the (scaffold, identifier)
column pair of `existing_df`; `newKeys` is the scaffold column of `new_df`;
the result is the new identifier column. -/
def extrapolateIds (existing : List (Option String × String))
    (newKeys : List (Option String)) (strategyNew : String) (length : Nat)
    (fuel : Nat) (src : Nat → Nat) : Except Err (List String) :=
  match extrapGo existing strategyNew length fuel src newKeys (existing.map (·.2)) 0 with
  | .error e => .error e
  | .ok (ys, _, _) => .ok ys

/-- The identifiers an extrapolation run mints for rows whose raw key
misses the lookup: the identifiers paired with lookup-missing keys. -/
def mintedIds (mapping : List (Option String × String))
    (pairs : List (Option String × String)) : List String :=
  (pairs.filter (fun p => (dictLookup mapping p.1).isNone)).map (·.2)

/-- The reuse-or-mint result of one extrapolation row under the `stable`
strategy, as a pure function of the raw key. -/
def stableRowId (mapping : List (Option String × String)) (length : Nat)
    (k : Option String) : String :=
  match dictLookup mapping k with
  | some v => v
  | none => hashB32 (normKey k) length

/-- The retry loop never finishes: every fuel bound is exhausted with the
loop still running. -/
def rerollNeverDone (length : Nat) (src : Nat → Nat) (seen : List String)
    (cand : String) (pos : Nat) : Prop :=
  ∀ fuel, rerollLoop length src fuel seen cand pos = .error .fuelOut

/-! ### Helper lemmas -/

theorem toBytesBE_length (n v : Nat) : (toBytesBE n v).length = n := by
  induction n generalizing v with
  | zero => rfl
  | succ k ih => simp [toBytesBE, ih]

theorem sha1_length (msg : List Nat) : (sha1 msg).length = 20 := by
  simp [sha1, toBytesBE_length]

theorem b32encodeList_length (bs : List Nat) :
    (b32encodeList bs).length = (8 * bs.length + 4) / 5 := by
  simp [b32encodeList]

theorem hashB32_length (text : String) (length : Nat) (h : length ≤ 32) :
    (hashB32 text length).length = length := by
  have h32 : (b32encodeList (sha1 (utf8Bytes text))).length = 32 := by
    rw [b32encodeList_length, sha1_length]
  simp [hashB32, String.length, h32, h]

theorem b32Alphabet_getD_mem (i : Nat) : b32Alphabet.getD (i % 32) 'A' ∈ b32Alphabet := by
  have h : i % 32 < b32Alphabet.length := Nat.mod_lt _ (by decide)
  rw [List.getD_eq_getElem _ _ h]
  exact List.getElem_mem h

theorem hashB32_mem_alphabet (text : String) (length : Nat) :
    ∀ c ∈ (hashB32 text length).data, c ∈ b32Alphabet := by
  intro c hc
  simp only [hashB32, String.mk] at hc
  have hc₁ : c ∈ b32encodeList (sha1 (utf8Bytes text)) := List.take_subset _ _ hc
  simp only [b32encodeList, List.mem_map] at hc₁
  obtain ⟨i, _, rfl⟩ := hc₁
  exact b32Alphabet_getD_mem _

theorem defaultChars_getD_mem (i : Nat) :
    defaultChars.getD (i % defaultChars.length) 'A' ∈ defaultChars := by
  have h : i % defaultChars.length < defaultChars.length := Nat.mod_lt _ (by decide)
  rw [List.getD_eq_getElem _ _ h]
  exact List.getElem_mem h

theorem idGenerator_length (size : Nat) (chars : List Char) (src : Nat → Nat) (pos : Nat) :
    (idGenerator size chars src pos).length = size := by
  simp [idGenerator, String.length]

theorem idGenerator_mem_alphabet (size : Nat) (src : Nat → Nat) (pos : Nat) :
    ∀ c ∈ (idGenerator size defaultChars src pos).data, c ∈ defaultChars := by
  intro c hc
  simp only [idGenerator, String.mk, List.mem_map] at hc
  obtain ⟨i, _, rfl⟩ := hc
  exact defaultChars_getD_mem _

theorem makeScaffoldId_stable (scaffold : Option String) (length : Nat)
    (src : Nat → Nat) (pos : Nat) :
    makeScaffoldId scaffold "stable" length src pos =
      .ok (hashB32 (normKey scaffold) length, pos) := rfl

theorem makeScaffoldId_random (scaffold : Option String) (length : Nat)
    (src : Nat → Nat) (pos : Nat) :
    makeScaffoldId scaffold "random" length src pos =
      .ok (idGenerator length defaultChars src pos, pos + length) := rfl

theorem makeScaffoldId_bad (scaffold : Option String) (strategy : String)
    (length : Nat) (src : Nat → Nat) (pos : Nat)
    (h1 : strategy ≠ "stable") (h2 : strategy ≠ "random") :
    makeScaffoldId scaffold strategy length src pos = .error .configError := by
  unfold makeScaffoldId
  rw [if_pos ⟨h1, h2⟩]

theorem rerollLoop_ok_not_mem (length : Nat) (src : Nat → Nat) (fuel : Nat) :
    ∀ (seen : List String) (cand : String) (pos : Nat) (y : String) (p : Nat),
      rerollLoop length src fuel seen cand pos = .ok (y, p) → y ∉ seen := by
  induction fuel with
  | zero =>
      intro seen cand pos y p h
      rw [rerollLoop] at h
      by_cases hc : cand ∈ seen
      · simp [hc] at h
      · simp [hc] at h
        obtain ⟨rfl, -⟩ := h
        exact hc
  | succ f ih =>
      intro seen cand pos y p h
      rw [rerollLoop] at h
      by_cases hc : cand ∈ seen
      · simp only [hc, if_true] at h
        exact ih seen _ _ y p h
      · simp [hc] at h
        obtain ⟨rfl, -⟩ := h
        exact hc

theorem ensureUniqueStep_ok (length : Nat) (src : Nat → Nat) (fuel : Nat)
    (seen : List String) (x : String) (pos : Nat) (y : String)
    (seen₁ : List String) (pos₁ : Nat)
    (h : ensureUniqueStep length src fuel seen x pos = .ok (y, seen₁, pos₁)) :
    y ∉ seen ∧ seen₁ = y :: seen := by
  unfold ensureUniqueStep at h
  by_cases hx : x ∈ seen
  · simp only [hx, not_true_eq_false, if_false] at h
    cases hr : rerollLoop length src fuel seen x pos with
    | error e => rw [hr] at h; simp at h
    | ok t =>
        obtain ⟨z, p₂⟩ := t
        rw [hr] at h
        simp at h
        obtain ⟨rfl, rfl, -⟩ := h
        exact ⟨rerollLoop_ok_not_mem length src fuel seen x pos z p₂ hr, rfl⟩
  · simp only [hx, not_false_eq_true, if_true] at h
    simp at h
    obtain ⟨rfl, rfl, -⟩ := h
    exact ⟨hx, rfl⟩

theorem ensureUniquePass_sound (length : Nat) (src : Nat → Nat) (fuel : Nat) :
    ∀ (xs seen : List String) (pos : Nat) (ys : List String) (p : Nat),
      ensureUniquePass length src fuel xs seen pos = .ok (ys, p) →
      ys.length = xs.length ∧ ys.Nodup ∧ ∀ y ∈ ys, y ∉ seen := by
  intro xs
  induction xs with
  | nil =>
      intro seen pos ys p h
      simp [ensureUniquePass] at h
      obtain ⟨rfl, -⟩ := h
      simp
  | cons x xs ih =>
      intro seen pos ys p h
      rw [ensureUniquePass] at h
      split at h
      · exact Except.noConfusion h
      · rename_i y seen₁ pos₁ heq
        split at h
        · exact Except.noConfusion h
        · rename_i ys₂ p₂ heq₂
          simp at h
          obtain ⟨rfl, -⟩ := h
          obtain ⟨hy, rfl⟩ := ensureUniqueStep_ok length src fuel seen x pos y seen₁ pos₁ heq
          obtain ⟨hlen, hnd, hmem⟩ := ih (y :: seen) pos₁ ys₂ p₂ heq₂
          refine ⟨by simp [hlen], ?_, ?_⟩
          · refine List.nodup_cons.mpr ⟨fun hmem₂ => ?_, hnd⟩
            exact (hmem y hmem₂) (List.mem_cons_self y seen)
          · intro z hz
            rcases List.mem_cons.mp hz with rfl | hz₂
            · exact hy
            · intro hzs
              exact (hmem z hz₂) (List.mem_cons_of_mem y hzs)

theorem assignPass1_length (strategy : String) (length : Nat) (src : Nat → Nat) :
    ∀ (ks : List (Option String)) (pos : Nat) (xs : List String) (p : Nat),
      assignPass1 strategy length src ks pos = .ok (xs, p) → xs.length = ks.length := by
  intro ks
  induction ks with
  | nil =>
      intro pos xs p h
      simp [assignPass1] at h
      obtain ⟨rfl, -⟩ := h
      rfl
  | cons k ks ih =>
      intro pos xs p h
      rw [assignPass1] at h
      split at h
      · exact Except.noConfusion h
      · rename_i x pos₁ heq
        split at h
        · exact Except.noConfusion h
        · rename_i xs₂ p₂ heq₂
          simp at h
          obtain ⟨rfl, -⟩ := h
          simp [ih pos₁ xs₂ p₂ heq₂]

theorem assignPass1_stable (length : Nat) (src : Nat → Nat) :
    ∀ (ks : List (Option String)) (pos : Nat),
      assignPass1 "stable" length src ks pos =
        .ok (ks.map (fun k => hashB32 (normKey k) length), pos) := by
  intro ks
  induction ks with
  | nil => intro pos; simp [assignPass1]
  | cons k ks ih => intro pos; simp [assignPass1, makeScaffoldId_stable, ih]

theorem assignIds_stable (keys : List (Option String)) (length fuel : Nat)
    (src : Nat → Nat) :
    assignIds keys "stable" length fuel src =
      .ok (keys.map (fun k => hashB32 (normKey k) length)) := by
  unfold assignIds
  rw [assignPass1_stable]
  simp

theorem getOrMakeId_hit (mapping : List (Option String × String)) (strategyNew : String)
    (length fuel : Nat) (src : Nat → Nat) (scaffold : Option String)
    (ids : List String) (pos : Nat) (v : String)
    (h : dictLookup mapping scaffold = some v) :
    getOrMakeId mapping strategyNew length fuel src scaffold ids pos = .ok (v, ids, pos) := by
  unfold getOrMakeId
  rw [h]

theorem getOrMakeId_miss_stable (mapping : List (Option String × String))
    (length fuel : Nat) (src : Nat → Nat) (scaffold : Option String)
    (ids : List String) (pos : Nat)
    (h : dictLookup mapping scaffold = none) :
    getOrMakeId mapping "stable" length fuel src scaffold ids pos =
      .ok (hashB32 (normKey scaffold) length,
           hashB32 (normKey scaffold) length :: ids, pos) := by
  unfold getOrMakeId
  rw [h, makeScaffoldId_stable]
  simp

theorem getOrMakeId_miss_random (mapping : List (Option String × String))
    (length fuel : Nat) (src : Nat → Nat) (scaffold : Option String)
    (ids : List String) (pos : Nat) (y : String) (ids₁ : List String) (pos₁ : Nat)
    (hm : dictLookup mapping scaffold = none)
    (h : getOrMakeId mapping "random" length fuel src scaffold ids pos = .ok (y, ids₁, pos₁)) :
    y ∉ ids ∧ ids₁ = y :: ids := by
  unfold getOrMakeId at h
  rw [hm] at h
  split at h
  · rename_i heq
    exact Option.noConfusion heq
  · split at h
    · rename_i heq₂
      rw [makeScaffoldId_random] at heq₂
      exact Except.noConfusion heq₂
    · rename_i newId pos₂ heq₂
      rw [makeScaffoldId_random] at heq₂
      simp at heq₂
      obtain ⟨rfl, rfl⟩ := heq₂
      rw [if_pos rfl] at h
      split at h
      · exact Except.noConfusion h
      · rename_i z p₂ heq₃
        simp at h
        obtain ⟨rfl, rfl, -⟩ := h
        exact ⟨rerollLoop_ok_not_mem length src fuel ids _ _ z p₂ heq₃, rfl⟩

theorem extrapGo_preserve (mapping : List (Option String × String)) (strategyNew : String)
    (length fuel : Nat) (src : Nat → Nat) :
    ∀ (ks : List (Option String)) (ids : List String) (pos : Nat)
      (ys : List String) (ids₂ : List String) (pos₂ : Nat),
      extrapGo mapping strategyNew length fuel src ks ids pos = .ok (ys, ids₂, pos₂) →
      ∀ p ∈ ks.zip ys, ∀ v, dictLookup mapping p.1 = some v → p.2 = v := by
  intro ks
  induction ks with
  | nil => intro ids pos ys ids₂ pos₂ h p hp; simp at hp
  | cons k ks ih =>
      intro ids pos ys ids₂ pos₂ h p hp v hv
      rw [extrapGo] at h
      split at h
      · exact Except.noConfusion h
      · rename_i y ids₁ pos₁ heq
        split at h
        · exact Except.noConfusion h
        · rename_i ys₂ ids₃ pos₃ heq₂
          simp at h
          obtain ⟨rfl, -⟩ := h
          rcases List.mem_cons.mp (by simpa using hp) with rfl | hp₂
          · rw [getOrMakeId_hit mapping strategyNew length fuel src k ids pos v hv] at heq
            simp at heq
            exact heq.1.symm
          · exact ih ids₁ pos₁ ys₂ ids₃ pos₃ heq₂ p hp₂ v hv

theorem extrapGo_random_minted (mapping : List (Option String × String))
    (length fuel : Nat) (src : Nat → Nat) :
    ∀ (ks : List (Option String)) (ids : List String) (pos : Nat)
      (ys : List String) (ids₂ : List String) (pos₂ : Nat),
      extrapGo mapping "random" length fuel src ks ids pos = .ok (ys, ids₂, pos₂) →
      (mintedIds mapping (ks.zip ys)).Nodup ∧
        ∀ x ∈ mintedIds mapping (ks.zip ys), x ∉ ids := by
  intro ks
  induction ks with
  | nil =>
      intro ids pos ys ids₂ pos₂ h
      simp [extrapGo] at h
      obtain ⟨rfl, -⟩ := h
      simp [mintedIds]
  | cons k ks ih =>
      intro ids pos ys ids₂ pos₂ h
      rw [extrapGo] at h
      split at h
      · exact Except.noConfusion h
      · rename_i y ids₁ pos₁ heq
        split at h
        · exact Except.noConfusion h
        · rename_i ys₂ ids₃ pos₃ heq₂
          simp at h
          obtain ⟨rfl, -⟩ := h
          cases hm : dictLookup mapping k with
          | some v =>
              rw [getOrMakeId_hit mapping "random" length fuel src k ids pos v hm] at heq
              simp at heq
              obtain ⟨-, rfl, rfl⟩ := heq
              have hmint : mintedIds mapping ((k :: ks).zip (y :: ys₂)) =
                  mintedIds mapping (ks.zip ys₂) := by
                simp [mintedIds, hm]
              rw [hmint]
              exact ih ids pos ys₂ ids₃ pos₃ heq₂
          | none =>
              obtain ⟨hy, rfl⟩ :=
                getOrMakeId_miss_random mapping length fuel src k ids pos y ids₁ pos₁ hm heq
              obtain ⟨hnd, hmem⟩ := ih (y :: ids) pos₁ ys₂ ids₃ pos₃ heq₂
              have hmint : mintedIds mapping ((k :: ks).zip (y :: ys₂)) =
                  y :: mintedIds mapping (ks.zip ys₂) := by
                simp [mintedIds, hm]
              rw [hmint]
              refine ⟨List.nodup_cons.mpr ⟨fun hmem₂ => ?_, hnd⟩, ?_⟩
              · exact (hmem y hmem₂) (List.mem_cons_self y ids)
              · intro z hz
                rcases List.mem_cons.mp hz with rfl | hz₂
                · exact hy
                · intro hzs
                  exact (hmem z hz₂) (List.mem_cons_of_mem y hzs)

theorem extrapGo_stable_total (mapping : List (Option String × String))
    (length fuel : Nat) (src : Nat → Nat) :
    ∀ (ks : List (Option String)) (ids : List String) (pos : Nat),
      ∃ ids₂, extrapGo mapping "stable" length fuel src ks ids pos =
        .ok (ks.map (stableRowId mapping length), ids₂, pos) := by
  intro ks
  induction ks with
  | nil => intro ids pos; exact ⟨ids, by simp [extrapGo]⟩
  | cons k ks ih =>
      intro ids pos
      cases hm : dictLookup mapping k with
      | some v =>
          obtain ⟨ids₂, hrec⟩ := ih ids pos
          refine ⟨ids₂, ?_⟩
          rw [extrapGo, getOrMakeId_hit mapping "stable" length fuel src k ids pos v hm]
          simp [hrec, stableRowId, hm]
      | none =>
          obtain ⟨ids₂, hrec⟩ := ih (hashB32 (normKey k) length :: ids) pos
          refine ⟨ids₂, ?_⟩
          rw [extrapGo, getOrMakeId_miss_stable mapping length fuel src k ids pos hm]
          simp [hrec, stableRowId, hm]

theorem rerollLoop_stuck_aux : ∀ (fuel pos : Nat),
    rerollLoop 1 (fun _ => 0) fuel ["A"] "A" pos = .error .fuelOut := by
  intro fuel
  induction fuel with
  | zero => intro pos; rfl
  | succ f ih =>
      intro pos
      rw [rerollLoop]
      have hgen : idGenerator 1 defaultChars (fun _ => 0) pos = "A" := rfl
      simp only [hgen]
      rw [if_pos (List.mem_singleton.mpr rfl)]
      exact ih (pos + 1)

/-! ### Claim theorems -/

/-- C1: for every supplied existing registry and every row of `new_rows`
whose key is present in that registry, `extrapolate_ids` assigns that row
exactly the identifier the registry associates with the key; the registry
mapping is a pure input, never updated, so no registry association is
changed. -/
theorem extrapolate_preserves_registry (existing : List (Option String × String))
    (newKeys : List (Option String)) (strategyNew : String) (length fuel : Nat)
    (src : Nat → Nat) (ys : List String)
    (h : extrapolateIds existing newKeys strategyNew length fuel src = .ok ys) :
    ∀ p ∈ newKeys.zip ys, ∀ v, dictLookup existing p.1 = some v → p.2 = v := by
  unfold extrapolateIds at h
  split at h
  · exact Except.noConfusion h
  · rename_i ys₂ ids₃ pos₃ heq
    simp at h
    subst h
    exact extrapGo_preserve existing strategyNew length fuel src newKeys _ 0 ys₂ ids₃ pos₃ heq

/-- Witness for C1 at the spec's concrete example: registry
`{"c1ccccc1": "AB12CD"}` and one new row with key `"c1ccccc1"`. -/
theorem extrapolate_preserves_registry_witness :
    extrapolateIds [(some "c1ccccc1", "AB12CD")] [some "c1ccccc1"] "stable" 8 0 (fun _ => 0) =
      .ok ["AB12CD"] ∧ (("AB12CD" : String) = "AB12CD") :=
  ⟨rfl,
    extrapolate_preserves_registry [(some "c1ccccc1", "AB12CD")] [some "c1ccccc1"]
      "stable" 8 0 (fun _ => 0) ["AB12CD"] rfl (some "c1ccccc1", "AB12CD")
      (by decide) "AB12CD" rfl⟩

/-- C2: stable assignment is a pure function of keys and length — the
result is independent of the random stream and of the retry fuel, so
re-running the computation yields the same identifiers — and on the worked
example `["c1ccccc1", "c1ccccc1", "NCCc1ccccc1"]` with length 6, rows 1 and
2 receive the identical identifier while row 3 receives a different one. -/
theorem stable_assign_deterministic :
    (∀ (keys : List (Option String)) (length fuel₁ fuel₂ : Nat) (src₁ src₂ : Nat → Nat),
      assignIds keys "stable" length fuel₁ src₁ = assignIds keys "stable" length fuel₂ src₂) ∧
    assignIds [some "c1ccccc1", some "c1ccccc1", some "NCCc1ccccc1"] "stable" 6 0 (fun _ => 0) =
      .ok ["QREAIM", "QREAIM", "6QLIIS"] ∧
    ("QREAIM" : String) ≠ "6QLIIS" := by
  refine ⟨?_, rfl, by decide⟩
  intro keys length fuel₁ fuel₂ src₁ src₂
  rw [assignIds_stable, assignIds_stable]

/-- C3: whenever `assign_ids` with strategy `random` completes on a dataset
of N rows, it produces N pairwise-distinct identifiers. -/
theorem assign_random_pairwise_distinct (keys : List (Option String))
    (length fuel : Nat) (src : Nat → Nat) (ids : List String)
    (h : assignIds keys "random" length fuel src = .ok ids) :
    ids.length = keys.length ∧ ids.Nodup := by
  unfold assignIds at h
  split at h
  · exact Except.noConfusion h
  · rename_i xs pos heq
    rw [if_pos rfl] at h
    split at h
    · exact Except.noConfusion h
    · rename_i ys p heq₂
      simp at h
      subst h
      obtain ⟨hlen, hnd, -⟩ := ensureUniquePass_sound length src fuel xs [] pos ys p heq₂
      exact ⟨hlen.trans (assignPass1_length "random" length src keys 0 xs pos heq), hnd⟩

/-- Witness for C3: a two-row random assignment that completes with two
distinct identifiers. -/
theorem assign_random_pairwise_distinct_witness :
    assignIds [some "a", some "b"] "random" 2 5 (fun n => n) = .ok ["AB", "CD"] ∧
    (["AB", "CD"] : List String).length = ([some "a", some "b"] : List (Option String)).length ∧
    (["AB", "CD"] : List String).Nodup :=
  ⟨rfl, assign_random_pairwise_distinct [some "a", some "b"] 2 5 (fun n => n) ["AB", "CD"] rfl⟩

/-- C4 counterexample: with `strategy_new = 'stable'` the minted identifier
is not checked against the registry's identifiers — for the registry
`{"a": "5HLR6XXH"}` (where `"5HLR6XXH"` is the stable hash of `"b"`) and
unseen key `"b"`, the newly allocated identifier equals a registry
identifier, contradicting the claim for the stable strategy. -/
theorem extrapolate_novelty_cex :
    extrapolateIds [(some "a", "5HLR6XXH")] [some "b"] "stable" 8 0 (fun _ => 0) =
      .ok ["5HLR6XXH"] ∧
    dictLookup [(some "a", "5HLR6XXH")] (some "b") = none ∧
    "5HLR6XXH" ∈ ([((some "a" : Option String), "5HLR6XXH")].map (fun p => p.2)) :=
  ⟨rfl, rfl, by decide⟩

/-- C4 amended: under `strategy_new = 'random'`, every identifier newly
allocated by `extrapolate_ids` for a key absent from the registry lookup is
absent from the registry's identifier set and distinct from every other
identifier newly allocated in the same call; the stable strategy gives no
such guarantee. -/
theorem extrapolate_random_novel (existing : List (Option String × String))
    (newKeys : List (Option String)) (length fuel : Nat) (src : Nat → Nat)
    (ys : List String)
    (h : extrapolateIds existing newKeys "random" length fuel src = .ok ys) :
    (mintedIds existing (newKeys.zip ys)).Nodup ∧
      ∀ x ∈ mintedIds existing (newKeys.zip ys), x ∉ existing.map (fun p => p.2) := by
  unfold extrapolateIds at h
  split at h
  · exact Except.noConfusion h
  · rename_i ys₂ ids₃ pos₃ heq
    simp at h
    subst h
    exact extrapGo_random_minted existing length fuel src newKeys _ 0 ys₂ ids₃ pos₃ heq

/-- Witness for C4: one unseen key, random strategy; the initial draw
collides with the registry identifier and is rerolled to a fresh one. -/
theorem extrapolate_random_novel_witness :
    extrapolateIds [(some "a", "AB")] [some "x"] "random" 2 5 (fun n => n) = .ok ["CD"] ∧
    (mintedIds [(some "a", "AB")] ([some "x"].zip ["CD"])).Nodup ∧
    ∀ x ∈ mintedIds [(some "a", "AB")] ([some "x"].zip ["CD"]),
      x ∉ [((some "a" : Option String), "AB")].map (fun p => p.2) :=
  ⟨rfl, extrapolate_random_novel [(some "a", "AB")] [some "x"] 2 5 (fun n => n) ["CD"] rfl⟩

/-- C5 counterexample: the minted pair is never inserted into the lookup,
so with `strategy_new = 'random'` two occurrences of the same unseen key
`"x"` receive two different identifiers instead of reusing the first. -/
theorem dup_unseen_random_cex :
    extrapolateIds [] [some "x", some "x"] "random" 2 10 (fun n => n) = .ok ["AB", "CD"] ∧
    ("AB" : String) ≠ "CD" := ⟨rfl, by decide⟩

/-- C5 amended: `extrapolate_ids` never extends the lookup; under
`strategy_new = 'stable'` every row's identifier is the pure row function
"registry identifier if the raw key is mapped, else the stable hash of the
normalized key", so duplicate keys still receive equal identifiers (each
occurrence re-mints the same hash); under `random` duplicates mint
distinct identifiers. -/
theorem extrapolate_stable_rowwise (existing : List (Option String × String))
    (newKeys : List (Option String)) (length fuel : Nat) (src : Nat → Nat)
    (ys : List String)
    (h : extrapolateIds existing newKeys "stable" length fuel src = .ok ys) :
    ys = newKeys.map (stableRowId existing length) := by
  obtain ⟨ids₂, heq⟩ :=
    extrapGo_stable_total existing length fuel src newKeys (existing.map (fun p => p.2)) 0
  unfold extrapolateIds at h
  rw [heq] at h
  simp at h
  exact h.symm

/-- Witness for C5: the same unseen key twice under `stable` yields the
same identifier twice. -/
theorem extrapolate_stable_rowwise_witness :
    extrapolateIds [] [some "x", some "x"] "stable" 6 0 (fun _ => 0) =
      .ok ["CH3K3D", "CH3K3D"] ∧
    (["CH3K3D", "CH3K3D"] : List String) = [some "x", some "x"].map (stableRowId [] 6) :=
  ⟨rfl, extrapolate_stable_rowwise [] [some "x", some "x"] 6 0 (fun _ => 0)
    ["CH3K3D", "CH3K3D"] rfl⟩

/-- C6 counterexample: the code only maps a non-string key to the sentinel;
an empty string is stripped to `""` and hashed as such, so
`stable_id("", 8) ≠ stable_id("NA_SCAFFOLD", 8)`. -/
theorem sentinel_equiv_cex :
    makeScaffoldId (some "") "stable" 8 (fun _ => 0) 0 = .ok ("3I42H3S6", 0) ∧
    makeScaffoldId (some "NA_SCAFFOLD") "stable" 8 (fun _ => 0) 0 = .ok ("YJN2E4GT", 0) ∧
    ("3I42H3S6" : String) ≠ "YJN2E4GT" := ⟨rfl, rfl, by decide⟩

/-- C6 amended: for every length, an absent (non-string) key and the
literal `"NA_SCAFFOLD"` map to the same stable identifier, and the empty
string and a whitespace-only string map to the same stable identifier; the
two groups are not identified with each other. -/
theorem sentinel_partial_equiv (length : Nat) (src : Nat → Nat) (pos : Nat) :
    makeScaffoldId none "stable" length src pos =
      makeScaffoldId (some "NA_SCAFFOLD") "stable" length src pos ∧
    makeScaffoldId (some "") "stable" length src pos =
      makeScaffoldId (some "   ") "stable" length src pos :=
  ⟨rfl, rfl⟩

/-- C7 counterexample: `extrapolate_ids` looks the raw row key up without
normalization — a row key differing from a registry key only by a leading
space misses the lookup, and a fresh identifier is minted instead of the
registry's `"AB12CD"`, although the normalized key is mapped. -/
theorem raw_lookup_cex :
    extrapolateIds [(some "c1ccccc1", "AB12CD")] [some " c1ccccc1"] "stable" 8 0 (fun _ => 0) =
      .ok ["QREAIMMB"] ∧
    pyStrip " c1ccccc1" = "c1ccccc1" ∧
    dictLookup [(some "c1ccccc1", "AB12CD")] (some "c1ccccc1") = some "AB12CD" ∧
    ("QREAIMMB" : String) ≠ "AB12CD" := ⟨rfl, by decide, rfl, by decide⟩

/-- C7 amended: the registry lookup uses the raw row key (normalization
happens only when minting); whenever the raw key is present in the lookup
the exact existing identifier is assigned, with no new allocation and no
mutation of the used-identifier set or the random stream position. -/
theorem raw_key_hit_preserves (mapping : List (Option String × String))
    (strategyNew : String) (length fuel : Nat) (src : Nat → Nat)
    (scaffold : Option String) (ids : List String) (pos : Nat) (v : String)
    (h : dictLookup mapping scaffold = some v) :
    getOrMakeId mapping strategyNew length fuel src scaffold ids pos = .ok (v, ids, pos) := by
  unfold getOrMakeId
  rw [h]

/-- Witness for C7 at a concrete registry hit under the random strategy. -/
theorem raw_key_hit_preserves_witness :
    dictLookup [(some "c1ccccc1", "AB12CD")] (some "c1ccccc1") = some "AB12CD" ∧
    getOrMakeId [(some "c1ccccc1", "AB12CD")] "random" 8 3 (fun _ => 0)
      (some "c1ccccc1") ["AB12CD"] 0 = .ok ("AB12CD", ["AB12CD"], 0) :=
  ⟨rfl, raw_key_hit_preserves [(some "c1ccccc1", "AB12CD")] "random" 8 3 (fun _ => 0)
    (some "c1ccccc1") ["AB12CD"] 0 "AB12CD" rfl⟩

/-- C8 counterexample: on an empty dataset the per-row strategy check never
runs, so an unrecognized strategy raises no error and an (empty) output is
produced, contradicting "fails ... including an empty dataset". -/
theorem config_error_empty_cex :
    assignIds [] "bogus" 8 0 (fun _ => 0) = .ok [] ∧
    ("bogus" : String) ≠ "stable" ∧ ("bogus" : String) ≠ "random" :=
  ⟨rfl, by decide, by decide⟩

/-- C8 amended: on every nonempty dataset, `assign_ids` with a strategy
outside {stable, random} fails with the configuration error when the first
row is processed, producing no output; an empty dataset returns without
error. -/
theorem config_error_nonempty (k : Option String) (keys : List (Option String))
    (strategy : String) (length fuel : Nat) (src : Nat → Nat)
    (h1 : strategy ≠ "stable") (h2 : strategy ≠ "random") :
    assignIds (k :: keys) strategy length fuel src = .error .configError := by
  unfold assignIds
  rw [assignPass1, makeScaffoldId_bad k strategy length src 0 h1 h2]

/-- Witness for C8: a one-row dataset with strategy `"bogus"` fails. -/
theorem config_error_nonempty_witness :
    ("bogus" : String) ≠ "stable" ∧ ("bogus" : String) ≠ "random" ∧
    assignIds [some "x"] "bogus" 8 0 (fun _ => 0) = .error .configError :=
  ⟨by decide, by decide,
    config_error_nonempty (some "x") [] "bogus" 8 0 (fun _ => 0) (by decide) (by decide)⟩

/-- C9 counterexample: the retry loop has no attempt cap — with a one-letter
identifier space whose sole identifier is already used, every fuel bound is
exhausted with the loop still running, and no AllocationExhausted-style
failure ever occurs. -/
theorem reroll_unbounded_cex : rerollNeverDone 1 (fun _ => 0) ["A"] "A" 0 :=
  fun fuel => rerollLoop_stuck_aux fuel 0

/-- C9 amended: the uniqueness-retry loop is unbounded (no fixed attempt
cap, no AllocationExhausted condition); it terminates exactly when the
stream yields a candidate outside the used set, and whenever it returns an
identifier that identifier is not in the used set. -/
theorem reroll_returns_fresh (length : Nat) (src : Nat → Nat) (fuel : Nat)
    (seen : List String) (cand : String) (pos : Nat) (y : String) (p : Nat)
    (h : rerollLoop length src fuel seen cand pos = .ok (y, p)) : y ∉ seen :=
  rerollLoop_ok_not_mem length src fuel seen cand pos y p h

/-- Witness for C9: a colliding candidate is rerolled until fresh. -/
theorem reroll_returns_fresh_witness :
    rerollLoop 2 (fun n => n) 3 ["AB"] "AB" 0 = .ok ("CD", 4) ∧
    ("CD" : String) ∉ (["AB"] : List String) :=
  ⟨rfl, reroll_returns_fresh 2 (fun n => n) 3 ["AB"] "AB" 0 "CD" 4 rfl⟩

/-- C10 counterexample: the base-32 encoding of a 20-byte SHA-1 digest has
exactly 32 characters, so a stable identifier requested with length 33 has
only 32 characters, not 33. -/
theorem length_contract_cex :
    makeScaffoldId (some "c1ccccc1") "stable" 33 (fun _ => 0) 0 =
      .ok (hashB32 "c1ccccc1" 33, 0) ∧
    (hashB32 "c1ccccc1" 33).length = 32 ∧ (32 : Nat) ≠ 33 :=
  ⟨rfl, by decide, by decide⟩

/-- C10 amended: stable identifiers have exactly `length` characters for
every `length ≤ 32`, each from the base-32 alphabet (A–Z and 2–7, a subset
of the default upper-alphanumeric alphabet); random identifiers drawn from
the default alphabet have exactly `length` characters from that alphabet
for every length. -/
theorem length_alphabet_contract :
    (∀ (key : String) (length : Nat), length ≤ 32 →
      (hashB32 key length).length = length ∧
      ∀ c ∈ (hashB32 key length).data, c ∈ b32Alphabet) ∧
    (∀ c ∈ b32Alphabet, c ∈ defaultChars) ∧
    (∀ (length : Nat) (src : Nat → Nat) (pos : Nat),
      (idGenerator length defaultChars src pos).length = length ∧
      ∀ c ∈ (idGenerator length defaultChars src pos).data, c ∈ defaultChars) :=
  ⟨fun key length h => ⟨hashB32_length key length h, hashB32_mem_alphabet key length⟩,
   by decide,
   fun length src pos => ⟨idGenerator_length length defaultChars src pos,
     idGenerator_mem_alphabet length src pos⟩⟩

/-- Witness for C10 at key `"c1ccccc1"` and length 8. -/
theorem length_alphabet_contract_witness :
    (hashB32 "c1ccccc1" 8).length = 8 ∧
    ∀ c ∈ (hashB32 "c1ccccc1" 8).data, c ∈ b32Alphabet :=
  length_alphabet_contract.1 "c1ccccc1" 8 (by decide)

end Scafid
